import Mathlib

/-!
Shallow embedding of the snake game engine in src/src/app.rs.

Every coordinate the program ever produces is an exact multiple of the
20-unit cell size, so the f64 arithmetic of the source is exact and is
modelled with Int.  The global random() source is modelled as an explicit
list of natural-number pairs consumed by the food generator; an exhausted
list corresponds to the unbounded retry recursion of the source failing
to terminate.  Rendering, storage and timer plumbing are pure I/O and are
omitted; set_highscore keeps the state mutation and drops the store call.
-/

/-- Grid point (struct Coords, app.rs lines 53 to 57 and 69 to 73).
Equality is exact equality on both axes. -/
structure Coords where
  x : Int
  y : Int
deriving DecidableEq

/-- Constructor helper (fn coords, app.rs lines 59 to 67). -/
def coords (x y : Int) : Coords :=
  ⟨x, y⟩

/-- Componentwise sum (Coords::add, app.rs lines 75 to 77). -/
def Coords.add (a b : Coords) : Coords :=
  coords (a.x + b.x) (a.y + b.y)

/-- Random candidate (Coords::random(500, 20), app.rs lines 78 to 85):
each axis is floor(random() * 25) * 20, a multiple of 20 in [0, 480].
The float draw in [0, 1) is abstracted as a natural number taken mod 25. -/
def Coords.random (r1 r2 : Nat) : Coords :=
  coords (Nat.cast (r1 % 25) * 20) (Nat.cast (r2 % 25) * 20)

/-- Heading (enum Direction, app.rs lines 45 to 51). -/
inductive Direction where
  | Left
  | Right
  | Up
  | Down
deriving DecidableEq

/-- Velocity: per-tick displacement paired with the heading
(struct Velocity, app.rs lines 39 to 43). -/
structure Velocity where
  coords : Coords
  direction : Direction
deriving DecidableEq

/-- Game state (struct State, app.rs lines 28 to 37).  The snake list is
head-first. -/
structure State where
  snake : List Coords
  high_score : Nat
  velocity : Velocity
  accepting_inputs : Bool
  draw_grid : Bool
  apple : Coords
  score : Nat
deriving DecidableEq

/-- Messages dispatched to update (enum Msg, app.rs lines 88 to 97). -/
inductive Msg where
  | Tick
  | None
  | Up
  | Left
  | Right
  | Down
  | Restart
deriving DecidableEq

/-- Self-bite check (App::bite, app.rs lines 317 to 326): the head is
removed and compared with every remaining segment.  The source indexes
snake[0] and would panic on an empty snake, which the program never
builds; the empty case is totalized to false. -/
def bite (s : State) : Bool :=
  match s.snake with
  | [] => false
  | head :: rest => rest.any (fun part => part.x == head.x && part.y == head.y)

/-- Game-over predicate (App::game_over, app.rs lines 227 to 238).  The
empty-snake case would panic in the source and is totalized to true. -/
def game_over (s : State) : Bool :=
  match s.snake with
  | [] => true
  | h :: _ =>
      decide (460 < h.x.natAbs) || decide (460 < h.y.natAbs) ||
        decide (h.x < 20) || decide (h.y < 20) || bite s

/-- Food placement (fn generate_apple, app.rs lines 335 to 349).  The
source recurses without any bound; here the recursion consumes one pair
of the explicit random stream per attempt, and none models the source
never returning (stream exhausted). -/
def generate_apple (snake : List Coords) : List (Nat × Nat) → Option Coords
  | [] => none
  | (r1, r2) :: rest =>
      let apple := Coords.random r1 r2
      if snake.any (fun pos => pos.x == apple.x && pos.y == apple.y) then
        generate_apple snake rest
      else if decide (460 < apple.x.natAbs) || decide (460 < apple.y.natAbs) ||
          decide (apple.x < 20) || decide (apple.y < 20) then
        generate_apple snake rest
      else some apple

/-- One movement step (App::animate, app.rs lines 239 to 250): prepend
the new head; if it equals the apple, bump the score and replace the
apple using the grown body as the occupied set, otherwise pop the tail.
When the model's random stream is exhausted (source: the retry recursion
diverges) the apple is kept; no claim depends on that branch.  The
source indexes snake[0] and would panic on an empty snake; that case is
totalized to the identity. -/
def animate (s : State) (rands : List (Nat × Nat)) : State :=
  match s.snake with
  | [] => s
  | h :: t =>
      let newHead := h.add s.velocity.coords
      if newHead = s.apple then
        { s with snake := newHead :: h :: t, score := s.score + 1,
                 apple := (generate_apple (newHead :: h :: t) rands).getD s.apple }
      else
        { s with snake := (newHead :: h :: t).dropLast }

/-- High-score update (App::set_highscore, app.rs lines 327 to 332); the
storage write is I/O and is dropped. -/
def set_highscore (s : State) : State :=
  if s.high_score < s.score then { s with high_score := s.score } else s

/-- One tick (App::tick, app.rs lines 213 to 225): animate, evaluate the
game-over predicate on the moved state, re-open the input window
unconditionally, and on game over record the high score (the timer
cancellation is I/O). -/
def tick (s : State) (rands : List (Nat × Nat)) : State :=
  let s1 := animate s rands
  let s2 := { s1 with accepting_inputs := true }
  if game_over s1 then set_highscore s2 else s2

/-- Turn handling (App::keydown, app.rs lines 300 to 316). -/
def keydown (s : State) (m : Msg) : State :=
  if !s.accepting_inputs then s
  else
    match m, s.velocity.direction with
    | Msg.Left, Direction.Up | Msg.Left, Direction.Down =>
        { s with velocity := ⟨coords (-20) 0, Direction.Left⟩, accepting_inputs := false }
    | Msg.Right, Direction.Up | Msg.Right, Direction.Down =>
        { s with velocity := ⟨coords 20 0, Direction.Right⟩, accepting_inputs := false }
    | Msg.Up, Direction.Left | Msg.Up, Direction.Right =>
        { s with velocity := ⟨coords 0 (-20), Direction.Up⟩, accepting_inputs := false }
    | Msg.Down, Direction.Left | Msg.Down, Direction.Right =>
        { s with velocity := ⟨coords 0 20, Direction.Down⟩, accepting_inputs := false }
    | _, _ => s

/-- Fresh state built by Component::create (app.rs lines 103 to 137),
parameterized by the restored high score. -/
def create_state (high_score : Nat) : State :=
  { snake := [coords 200 200, coords 180 200, coords 160 200, coords 140 200],
    high_score := high_score,
    velocity := ⟨coords 20 0, Direction.Left⟩,
    accepting_inputs := true,
    draw_grid := false,
    apple := coords 0 0,
    score := 0 }

/-- Spawn body installed by App::start (app.rs lines 193 to 199). -/
def spawnSnake : List Coords :=
  [coords 200 200, coords 180 200, coords 160 200, coords 140 200, coords 120 200]

/-- Field reinitialization done by App::start before its immediate tick
(app.rs lines 192 to 205).  Note that the score is left untouched. -/
def startInit (s : State) (r1 : List (Nat × Nat)) : State :=
  { s with snake := spawnSnake,
           velocity := ⟨coords 20 0, Direction.Left⟩,
           apple := (generate_apple spawnSnake r1).getD s.apple }

/-- App::start (app.rs lines 192 to 212): reinitialize, then perform one
immediate tick; timer and key-listener registration are I/O. -/
def start (s : State) (r1 r2 : List (Nat × Nat)) : State :=
  tick (startInit s r1) r2

/-- Message dispatch (Component::update, app.rs lines 139 to 147):
Restart is forwarded to start only when the game-over predicate holds. -/
def update (s : State) (m : Msg) (r1 r2 : List (Nat × Nat)) : State :=
  match m with
  | Msg.Tick => tick s r1
  | Msg.Left | Msg.Right | Msg.Up | Msg.Down => keydown s m
  | Msg.Restart => if game_over s then start s r1 r2 else s
  | Msg.None => s

/-- Canonical per-direction displacement, as the spec states it and as
the accepted-turn table of keydown implements it. -/
def canonicalDelta : Direction → Coords
  | Direction.Left => coords (-20) 0
  | Direction.Right => coords 20 0
  | Direction.Up => coords 0 (-20)
  | Direction.Down => coords 0 20

/-- Opposite heading, used to phrase the reversal rule. -/
def Direction.opposite : Direction → Direction
  | Direction.Left => Direction.Right
  | Direction.Right => Direction.Left
  | Direction.Up => Direction.Down
  | Direction.Down => Direction.Up

/-- Message carrying a direction request. -/
def msgOfDirection : Direction → Msg
  | Direction.Left => Msg.Left
  | Direction.Right => Msg.Right
  | Direction.Up => Msg.Up
  | Direction.Down => Msg.Down

/-- Direction named by a directional message, none otherwise. -/
def dirOfMsg : Msg → Option Direction
  | Msg.Left => some Direction.Left
  | Msg.Right => some Direction.Right
  | Msg.Up => some Direction.Up
  | Msg.Down => some Direction.Down
  | _ => none

/-- Vertical headings; a turn is perpendicular iff it changes this. -/
def Direction.isVertical : Direction → Bool
  | Direction.Up => true
  | Direction.Down => true
  | _ => false

/-- Row i of the candidate grid: the 25 cells 20i, 20j with j below 25. -/
def cellRow (i : Nat) : List Coords :=
  (List.range 25).map (fun j => coords (Nat.cast i * 20) (Nat.cast j * 20))

/-- Board on which every cell the candidate generator can draw is
occupied: all points 20i, 20j with i, j below 25. -/
def fullBoard : List Coords :=
  (List.range 25).flatMap cellRow

/-- Game-over state with a nonzero score, used for the restart claim. -/
def c4state : State :=
  { snake := [coords 0 200, coords 40 200],
    high_score := 7,
    velocity := ⟨coords (-20) 0, Direction.Left⟩,
    accepting_inputs := true,
    draw_grid := false,
    apple := coords 100 100,
    score := 5 }

/-- State whose head sits one cell outside the lower x bound while the
velocity is the rightward delta. -/
def c9state : State :=
  { snake := [coords 19 200],
    high_score := 0,
    velocity := ⟨coords 20 0, Direction.Right⟩,
    accepting_inputs := true,
    draw_grid := false,
    apple := coords 100 100,
    score := 0 }

/-- State whose head sits one cell outside the lower x bound with a
downward velocity. -/
def c9wstate : State :=
  { snake := [coords 19 200],
    high_score := 0,
    velocity := ⟨coords 0 20, Direction.Down⟩,
    accepting_inputs := true,
    draw_grid := false,
    apple := coords 100 100,
    score := 0 }

/-- State one tick away from game over, used for the post-game-over
input-window claim. -/
def c10state : State :=
  { snake := [coords 20 200, coords 40 200],
    high_score := 0,
    velocity := ⟨coords (-20) 0, Direction.Left⟩,
    accepting_inputs := true,
    draw_grid := false,
    apple := coords 100 100,
    score := 0 }

/-- Game-over state used to witness the game-over characterization. -/
def c2wstate : State :=
  { snake := [coords 0 200, coords 40 200],
    high_score := 0,
    velocity := ⟨coords (-20) 0, Direction.Left⟩,
    accepting_inputs := true,
    draw_grid := false,
    apple := coords 100 100,
    score := 0 }

/-- Helper: the game-over predicate reads only the snake list. -/
theorem game_over_congr (s₁ s₂ : State) (h : s₁.snake = s₂.snake) :
    game_over s₁ = game_over s₂ := by
  unfold game_over bite
  rw [h]

/-- Claim C1: for every state whose snake is nonempty (every Running
state), if the step detects food consumption (the new head equals the
food position) then the resulting body length is the old length plus one
and the resulting score is the old score plus one; otherwise the body
length and the score are unchanged. -/
theorem animate_growth (s : State) (rands : List (Nat × Nat)) (h : Coords)
    (t : List Coords) (hs : s.snake = h :: t) :
    (h.add s.velocity.coords = s.apple →
      (animate s rands).snake.length = s.snake.length + 1 ∧
      (animate s rands).score = s.score + 1) ∧
    (h.add s.velocity.coords ≠ s.apple →
      (animate s rands).snake.length = s.snake.length ∧
      (animate s rands).score = s.score) := by
  obtain ⟨sn, hsc, vel, acc, dg, ap, sc⟩ := s
  dsimp only at hs ⊢
  subst hs
  unfold animate
  dsimp only
  constructor
  · intro he
    rw [if_pos he]
    dsimp only
    exact ⟨by simp, rfl⟩
  · intro hne
    rw [if_neg hne]
    dsimp only
    refine ⟨?_, rfl⟩
    simp [List.length_dropLast]

/-- Witness for animate_growth at the freshly created state. -/
theorem animate_growth_witness :
    ((coords 200 200).add (create_state 0).velocity.coords = (create_state 0).apple →
      (animate (create_state 0) []).snake.length = (create_state 0).snake.length + 1 ∧
      (animate (create_state 0) []).score = (create_state 0).score + 1) ∧
    ((coords 200 200).add (create_state 0).velocity.coords ≠ (create_state 0).apple →
      (animate (create_state 0) []).snake.length = (create_state 0).snake.length ∧
      (animate (create_state 0) []).score = (create_state 0).score) :=
  animate_growth (create_state 0) [] (coords 200 200)
    [coords 180 200, coords 160 200, coords 140 200] rfl

/-- Claim C2: for every state with a nonempty snake, the game-over
predicate is true iff the head lies outside the inclusive play bounds
[20, 460] on either axis, or the head coincides with some body segment
other than the head itself. -/
theorem game_over_iff (s : State) (h : Coords) (t : List Coords)
    (hs : s.snake = h :: t) :
    game_over s = true ↔
      ((h.x < 20 ∨ 460 < h.x) ∨ (h.y < 20 ∨ 460 < h.y) ∨
        ∃ p ∈ t, p.x = h.x ∧ p.y = h.y) := by
  obtain ⟨sn, hsc, vel, acc, dg, ap, sc⟩ := s
  dsimp only at hs
  subst hs
  unfold game_over bite
  simp only [Bool.or_eq_true, decide_eq_true_eq, List.any_eq_true, Bool.and_eq_true,
    beq_iff_eq, or_assoc]
  constructor
  · rintro (hA | hB | hC | hD | hE)
    · rcases (by omega : h.x < 20 ∨ 460 < h.x) with h' | h'
      · exact Or.inl h'
      · exact Or.inr (Or.inl h')
    · rcases (by omega : h.y < 20 ∨ 460 < h.y) with h' | h'
      · exact Or.inr (Or.inr (Or.inl h'))
      · exact Or.inr (Or.inr (Or.inr (Or.inl h')))
    · exact Or.inl hC
    · exact Or.inr (Or.inr (Or.inl hD))
    · exact Or.inr (Or.inr (Or.inr (Or.inr hE)))
  · rintro (hx | hx | hy | hy | hE)
    · exact Or.inr (Or.inr (Or.inl hx))
    · exact Or.inl (by omega)
    · exact Or.inr (Or.inr (Or.inr (Or.inl hy)))
    · exact Or.inr (Or.inl (by omega))
    · exact Or.inr (Or.inr (Or.inr (Or.inr hE)))

/-- Witness for game_over_iff at a concrete out-of-bounds state. -/
theorem game_over_iff_witness :
    game_over c2wstate = true ↔
      (((coords 0 200).x < 20 ∨ 460 < (coords 0 200).x) ∨
        ((coords 0 200).y < 20 ∨ 460 < (coords 0 200).y) ∨
        ∃ p ∈ [coords 40 200], p.x = (coords 0 200).x ∧ p.y = (coords 0 200).y) :=
  game_over_iff c2wstate (coords 0 200) [coords 40 200] rfl

/-- Claim C3 (refutation at the failing input): both the freshly created
state and the state reinitialized by restart pair direction Left with
the delta (20, 0), while the canonical delta for Left, as the
accepted-turn table of keydown itself defines it, is (-20, 0).  The
velocity-delta invariant therefore fails at spawn. -/
theorem spawn_velocity_mismatch :
    (create_state 0).velocity.direction = Direction.Left ∧
    (create_state 0).velocity.coords ≠ canonicalDelta ((create_state 0).velocity.direction) ∧
    (startInit (create_state 0) []).velocity.direction = Direction.Left ∧
    (startInit (create_state 0) []).velocity.coords ≠
      canonicalDelta ((startInit (create_state 0) []).velocity.direction) := by
  decide

/-- Claim C4 counterexample: c4state is game over (head x = 0), yet
restarting from it leaves the score at 5 instead of resetting it to 0,
and the resulting body is not the spawn body (the immediate tick inside
start has already advanced it). -/
theorem restart_score_not_reset :
    game_over c4state = true ∧
    (update c4state Msg.Restart [(5, 5)] []).score = 5 ∧
    (update c4state Msg.Restart [(5, 5)] []).snake ≠ spawnSnake := by
  decide

/-- Claim C4 (amended): Restart is forwarded to start only when the
game-over predicate holds; start reinitializes the body to the spawn
body and the velocity to the spawn velocity, places fresh food using the
spawn body as the occupied set, preserves the high score, does NOT reset
the score, and then performs one immediate tick. -/
theorem restart_behavior (s : State) (r1 r2 : List (Nat × Nat)) :
    update s Msg.Restart r1 r2 =
      (if game_over s then tick (startInit s r1) r2 else s) ∧
    (startInit s r1).snake = spawnSnake ∧
    (startInit s r1).velocity = ⟨coords 20 0, Direction.Left⟩ ∧
    (startInit s r1).score = s.score ∧
    (startInit s r1).high_score = s.high_score ∧
    (startInit s r1).apple = (generate_apple spawnSnake r1).getD s.apple :=
  ⟨rfl, rfl, rfl, rfl, rfl, rfl⟩

/-- Claim C5: whenever the food generator returns a point, that point is
not coincident with any point of the occupied sequence and both of its
coordinates lie in [20, 460]. -/
theorem generate_apple_sound (snake : List Coords) (rands : List (Nat × Nat))
    (a : Coords) (h : generate_apple snake rands = some a) :
    (∀ p ∈ snake, ¬(p.x = a.x ∧ p.y = a.y)) ∧
    20 ≤ a.x ∧ a.x ≤ 460 ∧ 20 ≤ a.y ∧ a.y ≤ 460 := by
  induction rands with
  | nil => simp [generate_apple] at h
  | cons r rest ih =>
    obtain ⟨r1, r2⟩ := r
    simp only [generate_apple] at h
    split at h
    · exact ih h
    · split at h
      · exact ih h
      · rename_i hocc hbnd
        rw [Option.some.injEq] at h
        subst h
        constructor
        · intro p hp hpa
          apply hocc
          rw [List.any_eq_true]
          exact ⟨p, hp, by simp [hpa.1, hpa.2]⟩
        · simp only [Bool.or_eq_true, decide_eq_true_eq, not_or] at hbnd
          omega

/-- Witness for generate_apple_sound on a concrete occupied list and
random stream. -/
theorem generate_apple_sound_witness :
    (∀ p ∈ [coords 100 100], ¬(p.x = (coords 20 20).x ∧ p.y = (coords 20 20).y)) ∧
    20 ≤ (coords 20 20).x ∧ (coords 20 20).x ≤ 460 ∧
    20 ≤ (coords 20 20).y ∧ (coords 20 20).y ≤ 460 :=
  generate_apple_sound [coords 100 100] [(1, 1)] (coords 20 20) (by decide)

/-- Claim C6 (refutation at the failing input): on a fully occupied
board the food generator never returns at all, whatever random stream it
is given; there is no retry cap and no error value in the source, whose
return type is a bare Coords. -/
theorem generate_apple_fullBoard (rands : List (Nat × Nat)) :
    generate_apple fullBoard rands = none := by
  induction rands with
  | nil => rfl
  | cons r rest ih =>
    obtain ⟨r1, r2⟩ := r
    have hrow : Coords.random r1 r2 ∈ cellRow (r1 % 25) := by
      unfold cellRow
      apply List.mem_map.mpr
      exact ⟨r2 % 25, List.mem_range.mpr (by omega), rfl⟩
    have hmem : Coords.random r1 r2 ∈ fullBoard :=
      List.mem_flatMap.mpr ⟨r1 % 25, List.mem_range.mpr (by omega), hrow⟩
    have hany : (fullBoard.any (fun pos =>
        pos.x == (Coords.random r1 r2).x && pos.y == (Coords.random r1 r2).y)) = true := by
      rw [List.any_eq_true]
      exact ⟨Coords.random r1 r2, hmem, by simp⟩
    simp only [generate_apple]
    rw [if_pos hany]
    exact ih

/-- Claim C7: for every state, a turn request naming the current
direction or the direction directly opposite the current heading leaves
the whole state, in particular velocity and accepting_inputs,
unchanged. -/
theorem keydown_ignored (s : State) (d : Direction)
    (h : d = s.velocity.direction ∨ d = s.velocity.direction.opposite) :
    keydown s (msgOfDirection d) = s := by
  obtain ⟨sn, hsc, ⟨vc, vd⟩, acc, dg, ap, sc⟩ := s
  cases acc with
  | false => rfl
  | true => cases vd <;> rcases h with rfl | rfl <;> rfl

/-- Witness for keydown_ignored: requesting Left while already heading
Left changes nothing. -/
theorem keydown_ignored_witness :
    keydown (create_state 0) (msgOfDirection Direction.Left) = create_state 0 :=
  keydown_ignored (create_state 0) Direction.Left (Or.inl rfl)

/-- Claim C8: a directional input event changes at most the velocity and
accepting_inputs fields; the snake body, food position, score, high
score, grid flag and the game-over status are unchanged. -/
theorem keydown_frame (s : State) (m : Msg)
    (hm : m = Msg.Up ∨ m = Msg.Down ∨ m = Msg.Left ∨ m = Msg.Right) :
    (keydown s m).snake = s.snake ∧ (keydown s m).apple = s.apple ∧
    (keydown s m).score = s.score ∧ (keydown s m).high_score = s.high_score ∧
    (keydown s m).draw_grid = s.draw_grid ∧
    game_over (keydown s m) = game_over s := by
  obtain ⟨sn, hsc, ⟨vc, vd⟩, acc, dg, ap, sc⟩ := s
  rcases hm with rfl | rfl | rfl | rfl <;> cases acc <;> cases vd <;>
    exact ⟨rfl, rfl, rfl, rfl, rfl, game_over_congr _ _ rfl⟩

/-- Witness for keydown_frame: an Up request from the created state
leaves everything but velocity and the input window alone. -/
theorem keydown_frame_witness :
    (keydown (create_state 0) Msg.Up).snake = (create_state 0).snake ∧
    (keydown (create_state 0) Msg.Up).apple = (create_state 0).apple ∧
    (keydown (create_state 0) Msg.Up).score = (create_state 0).score ∧
    (keydown (create_state 0) Msg.Up).high_score = (create_state 0).high_score ∧
    (keydown (create_state 0) Msg.Up).draw_grid = (create_state 0).draw_grid ∧
    game_over (keydown (create_state 0) Msg.Up) = game_over (create_state 0) :=
  keydown_frame (create_state 0) Msg.Up (Or.inl rfl)

/-- Helper: set_highscore does not touch the snake. -/
theorem set_highscore_snake (s : State) : (set_highscore s).snake = s.snake := by
  unfold set_highscore
  split <;> rfl

/-- Helper: the game-over status of the ticked state is the game-over
status evaluated right after the move, as in the source. -/
theorem game_over_tick (s : State) (rands : List (Nat × Nat)) :
    game_over (tick s rands) = game_over (animate s rands) := by
  unfold tick
  dsimp only
  split
  · exact game_over_congr _ _ (by rw [set_highscore_snake])
  · exact game_over_congr _ _ rfl

/-- Helper: a state whose head x coordinate is below 20 is game over. -/
theorem game_over_of_head_low (s : State) (h : Coords) (rest : List Coords)
    (hs : s.snake = h :: rest) (hx : h.x < 20) : game_over s = true := by
  unfold game_over
  rw [hs]
  have hd : decide (h.x < 20) = true := decide_eq_true hx
  simp [hd]

/-- Helper: after animate the head is the old head plus the velocity
delta, in both the growing and the non-growing branch. -/
theorem animate_head (s : State) (rands : List (Nat × Nat)) (h : Coords)
    (t : List Coords) (hs : s.snake = h :: t) :
    ∃ rest, (animate s rands).snake = (h.add s.velocity.coords) :: rest := by
  obtain ⟨sn, hsc, vel, acc, dg, ap, sc⟩ := s
  dsimp only at hs ⊢
  subst hs
  unfold animate
  dsimp only
  split
  · exact ⟨_, rfl⟩
  · exact ⟨_, rfl⟩

/-- Claim C9 counterexample: in c9state the head x coordinate is 19,
one cell outside the lower bound, yet the next step is not game over,
because the rightward delta (20, 0) carries the head back inside the
play area. -/
theorem head_x19_not_gameover :
    c9state.snake = [coords 19 200] ∧
    game_over (tick c9state []) = false := by
  decide

/-- Claim C9 (amended): a state whose head x coordinate is
marginLow - 1 = 19 always yields game over on the next step provided
the velocity delta is one of the canonical deltas other than the
rightward (20, 0). -/
theorem step_from_x19_gameover (s : State) (rands : List (Nat × Nat))
    (h : Coords) (t : List Coords) (hs : s.snake = h :: t) (hx : h.x = 19)
    (hv : s.velocity.coords = coords (-20) 0 ∨ s.velocity.coords = coords 0 (-20) ∨
      s.velocity.coords = coords 0 20) :
    game_over (tick s rands) = true := by
  rw [game_over_tick]
  obtain ⟨rest, hr⟩ := animate_head s rands h t hs
  refine game_over_of_head_low _ _ _ hr ?_
  rcases hv with hv | hv | hv <;> rw [hv] <;> simp [Coords.add, coords] <;> omega

/-- Witness for step_from_x19_gameover with a downward velocity. -/
theorem step_from_x19_gameover_witness :
    game_over (tick c9wstate []) = true :=
  step_from_x19_gameover c9wstate [] (coords 19 200) [] rfl rfl
    (Or.inr (Or.inr rfl))

/-- Helper: tick re-opens the input window unconditionally. -/
theorem tick_accepting_true (s : State) (rands : List (Nat × Nat)) :
    (tick s rands).accepting_inputs = true := by
  unfold tick
  dsimp only
  split
  · unfold set_highscore
    split <;> rfl
  · rfl

/-- Helper: with the input window open, a perpendicular direction
request is accepted: it installs the canonical velocity for the
requested direction and closes the window. -/
theorem keydown_accepts (s : State) (m : Msg) (d : Direction)
    (hacc : s.accepting_inputs = true) (hm : dirOfMsg m = some d)
    (hperp : s.velocity.direction.isVertical ≠ d.isVertical) :
    (keydown s m).velocity = ⟨canonicalDelta d, d⟩ ∧
    (keydown s m).accepting_inputs = false := by
  obtain ⟨sn, hsc, ⟨vc, vd⟩, acc, dg, ap, sc⟩ := s
  dsimp only at hacc hperp ⊢
  subst hacc
  cases m with
  | Tick => exact absurd hm (by simp [dirOfMsg])
  | None => exact absurd hm (by simp [dirOfMsg])
  | Restart => exact absurd hm (by simp [dirOfMsg])
  | Left =>
    injection hm with hd
    subst hd
    cases vd with
    | Left => exact absurd rfl hperp
    | Right => exact absurd rfl hperp
    | Up => exact ⟨rfl, rfl⟩
    | Down => exact ⟨rfl, rfl⟩
  | Right =>
    injection hm with hd
    subst hd
    cases vd with
    | Left => exact absurd rfl hperp
    | Right => exact absurd rfl hperp
    | Up => exact ⟨rfl, rfl⟩
    | Down => exact ⟨rfl, rfl⟩
  | Up =>
    injection hm with hd
    subst hd
    cases vd with
    | Left => exact ⟨rfl, rfl⟩
    | Right => exact ⟨rfl, rfl⟩
    | Up => exact absurd rfl hperp
    | Down => exact absurd rfl hperp
  | Down =>
    injection hm with hd
    subst hd
    cases vd with
    | Left => exact ⟨rfl, rfl⟩
    | Right => exact ⟨rfl, rfl⟩
    | Up => exact absurd rfl hperp
    | Down => exact absurd rfl hperp

/-- Claim C10: a step whose resulting state is game over still sets
accepting_inputs to true, so a subsequent perpendicular direction
request is still accepted and mutates velocity and direction; entering
game over does not close the turn window. -/
theorem tick_gameover_turn (s : State) (rands : List (Nat × Nat)) (m : Msg)
    (d : Direction) (_hover : game_over (tick s rands) = true)
    (hm : dirOfMsg m = some d)
    (hperp : (tick s rands).velocity.direction.isVertical ≠ d.isVertical) :
    (tick s rands).accepting_inputs = true ∧
    (keydown (tick s rands) m).velocity = ⟨canonicalDelta d, d⟩ ∧
    (keydown (tick s rands) m).accepting_inputs = false := by
  have hacc := tick_accepting_true s rands
  have hk := keydown_accepts (tick s rands) m d hacc hm hperp
  exact ⟨hacc, hk.1, hk.2⟩

/-- Witness for tick_gameover_turn: c10state runs into the left wall on
its tick, and an Up request afterwards is still accepted. -/
theorem tick_gameover_turn_witness :
    (tick c10state []).accepting_inputs = true ∧
    (keydown (tick c10state []) Msg.Up).velocity =
      ⟨canonicalDelta Direction.Up, Direction.Up⟩ ∧
    (keydown (tick c10state []) Msg.Up).accepting_inputs = false :=
  tick_gameover_turn c10state [] Msg.Up Direction.Up (by decide) rfl (by decide)
